import Mathlib

/-!
Verification of the concept/MCD core sampled from the Hana repository:
the `Logical` minimal-complete-definition (src/include/boost/hana/logical.hpp),
the `Orderable` less-MCD (src/include/boost/hana/orderable.hpp), the operator
bridge guards of both headers, the `Comparable` instances over the test
`Numeric` wrapper (src/test/test/numeric/comparable.hpp), and the `Set` /
`take_while` behaviour exercised by src/test/set/make.cpp and
src/benchmark/list/take_while.cpp.  Machinery that the sampled files use but
that is not itself under src/ (the boolean Logical instance, `set.hpp`,
`take_while`, the two Comparable MCD derivation tables) is modelled from the
spec and marked as such.
-/

namespace hana

/-- The `Logical` minimal complete definition of logical.hpp: an instance
supplies `eval_if` (branch selection over deferred zero-argument callables)
and `not_`.  The C++ branch callables take one ignored argument; they are
modelled as thunks `Unit → β`. -/
structure LogicalMcd (L : Type) : Type 1 where
  eval_if : {β : Type} → L → (Unit → β) → (Unit → β) → β
  not_ : L → L

/-- `Logical::mcd::if_impl` of logical.hpp: wrap both branches in deferred
callables and hand them to `eval_if`. -/
def if_ {L β : Type} (I : LogicalMcd L) (c : L) (t e : β) : β :=
  I.eval_if c (fun _ => t) (fun _ => e)

/-- `Logical::mcd::or_impl` of logical.hpp: `or_(x, y) = if_(x, x, y)`. -/
def or_ {L : Type} (I : LogicalMcd L) (x y : L) : L :=
  if_ I x x y

/-- `Logical::mcd::and_impl` of logical.hpp: `and_(x, y) = if_(x, y, x)`. -/
def and_ {L : Type} (I : LogicalMcd L) (x y : L) : L :=
  if_ I x y x

/-- Reference definition taken from the spec's words:
`or_(x,y) := if_(x, x, y)`. -/
def spec_or (L : Type) (I : LogicalMcd L) (x y : L) : L :=
  if_ I x x y

/-- Reference definition taken from the spec's words:
`and_(x,y) := if_(x, y, x)`. -/
def spec_and (L : Type) (I : LogicalMcd L) (x y : L) : L :=
  if_ I x y x

/-- Reference definition taken from the spec's words:
`if_(c,t,e) := eval_if(c, fun _ => t, fun _ => e)`. -/
def spec_if (L β : Type) (I : LogicalMcd L) (c : L) (t e : β) : β :=
  I.eval_if c (fun _ => t) (fun _ => e)

/-- `Orderable::less_mcd` of orderable.hpp: an instance founded on `less`
alone, together with the Logical structure of the values `less` returns. -/
structure less_mcd (α L : Type) : Type 1 where
  logical : LogicalMcd L
  less : α → α → L

/-- `Orderable::less_mcd::less_equal_impl`: `not_(less(y, x))`. -/
def less_mcd.less_equal {α L : Type} (I : less_mcd α L) (x y : α) : L :=
  I.logical.not_ (I.less y x)

/-- `Orderable::less_mcd::greater_impl`: `less(y, x)`. -/
def less_mcd.greater {α L : Type} (I : less_mcd α L) (x y : α) : L :=
  I.less y x

/-- `Orderable::less_mcd::greater_equal_impl`: `not_(less(x, y))`. -/
def less_mcd.greater_equal {α L : Type} (I : less_mcd α L) (x y : α) : L :=
  I.logical.not_ (I.less x y)

/-- `Orderable::less_mcd::min_impl`: `if_(less(x, y), x, y)`. -/
def less_mcd.min {α L : Type} (I : less_mcd α L) (x y : α) : α :=
  if_ I.logical (I.less x y) x y

/-- `Orderable::less_mcd::max_impl`: `if_(less(x, y), y, x)`. -/
def less_mcd.max {α L : Type} (I : less_mcd α L) (x y : α) : α :=
  if_ I.logical (I.less x y) y x

/-- Reference definition taken from the spec's words:
`less_equal(x,y) := not(less(y,x))`. -/
def spec_less_equal {α L : Type} (I : less_mcd α L) (x y : α) : L :=
  I.logical.not_ (I.less y x)

/-- Reference definition taken from the spec's words:
`greater(x,y) := less(y,x)`. -/
def spec_greater {α L : Type} (I : less_mcd α L) (x y : α) : L :=
  I.less y x

/-- Reference definition taken from the spec's words:
`greater_equal(x,y) := not(less(x,y))`. -/
def spec_greater_equal {α L : Type} (I : less_mcd α L) (x y : α) : L :=
  I.logical.not_ (I.less x y)

/-- Reference definition taken from the spec's words:
`min(x,y) := if(less(x,y), x, y)`. -/
def spec_min {α L : Type} (I : less_mcd α L) (x y : α) : α :=
  if_ I.logical (I.less x y) x y

/-- Reference definition taken from the spec's words:
`max(x,y) := if(less(x,y), y, x)`. -/
def spec_max {α L : Type} (I : less_mcd α L) (x y : α) : α :=
  if_ I.logical (I.less x y) y x

/-- Modelled from the spec: the boolean Logical instance (the `bool.hpp`
header is not under src/).  `eval_if` evaluates exactly the thunk of the
branch selected by the condition, and `not_` is boolean negation. -/
def boolLogical : LogicalMcd Bool where
  eval_if := fun c t e => if c then t () else e ()
  not_ := Bool.not

/-- A less-MCD Orderable instance whose `less` produces boolean conditions,
wired to the boolean Logical instance. -/
def boolLessMcd {α : Type} (lt : α → α → Bool) : less_mcd α Bool :=
  { logical := boolLogical, less := lt }

/-- The SFINAE guard of the binary bridged operators in logical.hpp and
orderable.hpp: the overload participates iff
`enable_operators<Concept, datatype_t<X>>::value ||
 enable_operators<Concept, datatype_t<Y>>::value`. -/
def bridge2 {τ α β : Type} (optIn : τ → Bool) (tagOf : α → τ)
    (f : α → α → β) (x y : α) : Option β :=
  if optIn (tagOf x) || optIn (tagOf y) then some (f x y) else none

/-- The SFINAE guard of the unary bridged `operator!` in logical.hpp: the
overload participates iff `enable_operators<Logical, datatype_t<X>>::value`. -/
def bridge1 {τ α β : Type} (optIn : τ → Bool) (tagOf : α → τ)
    (f : α → β) (x : α) : Option β :=
  if optIn (tagOf x) then some (f x) else none

/-- The test `Numeric` wrapper of test/numeric: a value holding one integer. -/
structure Numeric where
  value : Int
deriving DecidableEq, Repr

/-- Modelled from the spec: `test::numeric`, the constructor used by the
Comparable instances of src/test/test/numeric/comparable.hpp to wrap a
boolean result back into a `Numeric` value (test/numeric/numeric.hpp is not
under src/). -/
def numeric (b : Bool) : Numeric :=
  ⟨if b then 1 else 0⟩

/-- Modelled from the spec: `not_` of the Logical instance over `Numeric`
(test/numeric/logical.hpp is not under src/); a `Numeric` is truthy iff its
value is nonzero, and `not_` wraps the negated truth value. -/
def Numeric.not_ (x : Numeric) : Numeric :=
  numeric (x.value == 0)

/-- `equal_impl` of the equal-MCD `Comparable` instance in
src/test/test/numeric/comparable.hpp: `test::numeric(x.value == y.value)`. -/
def equal_emcd (x y : Numeric) : Numeric :=
  numeric (x.value == y.value)

/-- Modelled from the spec: the `not_equal` operation derived by
`Comparable::equal_mcd` (comparable.hpp is not under src/):
`not_equal(x,y) := not_(equal(x,y))`. -/
def not_equal_emcd (x y : Numeric) : Numeric :=
  (equal_emcd x y).not_

/-- `not_equal_impl` of the not_equal-MCD `Comparable` instance in
src/test/test/numeric/comparable.hpp: `test::numeric(x.value != y.value)`. -/
def not_equal_nmcd (x y : Numeric) : Numeric :=
  numeric (x.value != y.value)

/-- Modelled from the spec: the `equal` operation derived by
`Comparable::not_equal_mcd` (comparable.hpp is not under src/):
`equal(x,y) := not_(not_equal(x,y))`. -/
def equal_nmcd (x y : Numeric) : Numeric :=
  (not_equal_nmcd x y).not_

/-- Modelled from the spec: `Set` insertion (set.hpp is not under src/).
Sets are element lists with no two elements mutually equal under the
Equality concept, here a boolean relation `eq`; inserting a value equal to
an existing element returns the set unchanged, otherwise the value is
appended. -/
def insert {α : Type} (eq : α → α → Bool) (s : List α) (x : α) : List α :=
  if s.any (fun y => eq y x) then s else s ++ [x]

/-- Modelled from the spec: `make<Set>(xs...)` is repeated `insert` starting
from the empty set (set.hpp is not under src/). -/
def make_set {α : Type} (eq : α → α → Bool) (xs : List α) : List α :=
  xs.foldl (insert eq) []

/-- Modelled from the spec: `take_while(seq, pred)` (the take_while
algorithm header is not under src/; src/benchmark/list/take_while.cpp only
drives it): the longest prefix of `seq` on which `pred` holds for every
element in order, stopping at the first failing element. -/
def take_while {α : Type} : List α → (α → Bool) → List α
  | [], _ => []
  | x :: xs, p => if p x then x :: take_while xs p else []

/-- Modelled from the spec: the number of predicate evaluations that
`take_while` performs, one per element inspected, stopping right after the
first failing element. -/
def take_while_evals {α : Type} : List α → (α → Bool) → Nat
  | [], _ => 0
  | x :: xs, p => if p x then 1 + take_while_evals xs p else 1

theorem take_while_eq_take (p : α → Bool) :
    ∀ s : List α, take_while s p = s.take (take_while s p).length := by
  intro s
  induction s with
  | nil => rfl
  | cons x xs ih =>
    by_cases h : p x = true
    · simp [take_while, h, List.take_succ_cons, ← ih]
    · simp [take_while, h]

theorem take_while_all (p : α → Bool) :
    ∀ s : List α, ∀ a ∈ take_while s p, p a = true := by
  intro s
  induction s with
  | nil => intro a ha; cases ha
  | cons x xs ih =>
    intro a ha
    by_cases h : p x = true
    · rw [take_while, if_pos h] at ha
      rcases List.mem_cons.mp ha with rfl | ha
      · exact h
      · exact ih a ha
    · rw [take_while, if_neg h] at ha
      cases ha

theorem take_while_longest (p : α → Bool) :
    ∀ (s : List α) (n : Nat), (∀ a ∈ s.take n, p a = true) →
      n ≤ s.length → n ≤ (take_while s p).length := by
  intro s
  induction s with
  | nil => intro n _ hn; simpa [take_while] using hn
  | cons x xs ih =>
    intro n hall hn
    match n with
    | 0 => exact Nat.zero_le _
    | Nat.succ m =>
      have hx : p x = true := hall x (by simp [List.take_succ_cons])
      have hm : m ≤ (take_while xs p).length := by
        refine ih m (fun a ha => hall a ?_) (Nat.le_of_succ_le_succ (by simpa using hn))
        simp [List.take_succ_cons, ha]
      simpa [take_while, hx] using Nat.succ_le_succ hm

theorem take_while_evals_count (p : α → Bool) :
    ∀ s : List α, take_while_evals s p =
      (take_while s p).length +
        (if (take_while s p).length = s.length then 0 else 1) := by
  intro s
  induction s with
  | nil => rfl
  | cons x xs ih =>
    by_cases h : p x = true
    · by_cases hc : (take_while xs p).length = xs.length
      · simp [take_while_evals, take_while, h, ih, hc, Nat.add_comm]
      · simp only [take_while_evals, take_while, h, if_true, ih, List.length_cons]
        have hc2 : ¬((take_while xs p).length + 1 = xs.length + 1) := by omega
        rw [if_neg hc, if_neg hc2]
        omega
    · simp [take_while_evals, take_while, h]

theorem insert_mem_self {α : Type} (eq : α → α → Bool) (s : List α) (x : α)
    (hx : eq x x = true) :
    (insert eq s x).any (fun y => eq y x) = true := by
  by_cases h : s.any (fun y => eq y x) = true
  · rw [insert, if_pos h]; exact h
  · rw [insert, if_neg h]
    simp [List.any_append, hx]

end hana

open hana

/-- C1: for every Orderable instance founded on the `less` MCD and all
operands x, y, the five derived operations of orderable.hpp equal the
spec's reference definitions: `less_equal(x,y) = not_(less(y,x))`,
`greater(x,y) = less(y,x)`, `greater_equal(x,y) = not_(less(x,y))`,
`min(x,y) = if_(less(x,y), x, y)`, `max(x,y) = if_(less(x,y), y, x)`. -/
theorem C1_less_mcd_derivations_match_spec :
    ∀ (α L : Type) (I : less_mcd α L) (x y : α),
      I.less_equal x y = spec_less_equal I x y ∧
      I.greater x y = spec_greater I x y ∧
      I.greater_equal x y = spec_greater_equal I x y ∧
      I.min x y = spec_min I x y ∧
      I.max x y = spec_max I x y := by
  intro α L I x y
  exact ⟨rfl, rfl, rfl, rfl, rfl⟩

/-- C2: for every Logical instance founded on the `eval_if`+`not_` MCD, the
derived operations of logical.hpp equal the spec's reference definitions:
`or_(x,y) = if_(x, x, y)`, `and_(x,y) = if_(x, y, x)`, and
`if_(c,t,e) = eval_if(c, fun _ => t, fun _ => e)`. -/
theorem C2_logical_mcd_derivations_match_spec :
    ∀ (L β : Type) (I : LogicalMcd L) (x y c : L) (t e : β),
      or_ I x y = spec_or L I x y ∧
      and_ I x y = spec_and L I x y ∧
      if_ I c t e = spec_if L β I c t e := by
  intro L β I x y c t e
  exact ⟨rfl, rfl, rfl⟩

/-- C3: `eval_if` evaluates only the selected branch: under a true
condition the result is the value of the true-branch thunk and is entirely
independent of the else-branch thunk, and symmetrically for a false
condition; concretely, `if_(true_, 10, 20)` is `10`. -/
theorem C3_eval_if_short_circuits :
    (∀ (β : Type) (t e e2 : Unit → β),
      boolLogical.eval_if true t e = t () ∧
      boolLogical.eval_if true t e = boolLogical.eval_if true t e2) ∧
    (∀ (β : Type) (t t2 e : Unit → β),
      boolLogical.eval_if false t e = e () ∧
      boolLogical.eval_if false t e = boolLogical.eval_if false t2 e) ∧
    if_ boolLogical true (10 : Nat) 20 = 10 := by
  refine ⟨fun β t e e2 => ⟨rfl, rfl⟩, fun β t t2 e => ⟨rfl, rfl⟩, rfl⟩

/-- C4: Set construction deduplicates under the Equality concept: with a
reflexive-at-x equality, `make<Set>(x, x) = make<Set>(x)`, inserting an
already-present element is a no-op, and `make<Set>` is repeated `insert`
from the empty set. -/
theorem C4_set_dedup (α : Type) (eq : α → α → Bool) (x : α) (s xs : List α)
    (hx : eq x x = true) :
    make_set eq [x, x] = make_set eq [x] ∧
    hana.insert eq (hana.insert eq s x) x = hana.insert eq s x ∧
    make_set eq xs = List.foldl (hana.insert eq) [] xs := by
  refine ⟨?_, ?_, rfl⟩
  · simp [make_set, hana.insert, hx]
  · rw [hana.insert, if_pos (insert_mem_self eq s x hx)]

/-- Witness for C4 at eq = Nat equality, x = 0, s = [1], xs = [0, 1]. -/
theorem C4_set_dedup_witness :
    make_set (fun a b : Nat => a == b) [0, 0] =
      make_set (fun a b : Nat => a == b) [0] ∧
    hana.insert (fun a b : Nat => a == b)
        (hana.insert (fun a b : Nat => a == b) [1] 0) 0 =
      hana.insert (fun a b : Nat => a == b) [1] 0 ∧
    make_set (fun a b : Nat => a == b) [0, 1] =
      List.foldl (hana.insert (fun a b : Nat => a == b)) [] [0, 1] :=
  C4_set_dedup Nat (fun a b => a == b) 0 [1] [0, 1] (by decide)

/-- C5: `take_while(s, p)` is the longest prefix of `s` on which `p` holds
for every element in order (it is an initial segment of `s`, every element
of it satisfies `p`, and no longer all-satisfying initial segment exists);
`p` is evaluated once per element of that prefix plus exactly one failing
element when the prefix is proper; and
`take_while([1,2,3,4], fun v => v < 3) = [1,2]`. -/
theorem C5_take_while_longest_satisfying_front :
    ∀ (α : Type) (s : List α) (p : α → Bool),
      take_while s p = s.take (take_while s p).length ∧
      (∀ a ∈ take_while s p, p a = true) ∧
      (∀ n, (∀ a ∈ s.take n, p a = true) → n ≤ s.length →
        n ≤ (take_while s p).length) ∧
      take_while_evals s p =
        (take_while s p).length +
          (if (take_while s p).length = s.length then 0 else 1) ∧
      take_while [1, 2, 3, 4] (fun v => decide (v < 3)) = [1, 2] := by
  intro α s p
  exact ⟨take_while_eq_take p s, take_while_all p s, take_while_longest p s,
    take_while_evals_count p s, by decide⟩

/-- Witness for C5 at s = [1,2,3,4], p = (v < 3). -/
theorem C5_take_while_witness :
    take_while [1, 2, 3, 4] (fun v => decide (v < 3)) = [1, 2] :=
  (C5_take_while_longest_satisfying_front Nat [1, 2, 3, 4]
    (fun v => decide (v < 3))).2.2.2.2

/-- C6: when neither operand's tag has opted into the operator capability
flag, the SFINAE guard of every bridged binary operator (&&, ||, <, <=, >,
>=) and of the unary ! fails, so the bridge never dispatches to the named
algorithm. -/
theorem C6_bridge_disabled_without_opt_in (τ α : Type) (optIn : τ → Bool)
    (tagOf : α → τ) (x y : α)
    (hx : optIn (tagOf x) = false) (hy : optIn (tagOf y) = false) :
    (∀ (β : Type) (f : α → α → β), bridge2 optIn tagOf f x y = none) ∧
    (∀ (β : Type) (g : α → β), bridge1 optIn tagOf g x = none) := by
  constructor
  · intro β f; simp [bridge2, hx, hy]
  · intro β g; simp [bridge1, hx]

/-- Witness for C6 with the opt-in flag set only for tag 1 and both
operands of tag 0. -/
theorem C6_bridge_disabled_witness :
    bridge2 (fun t : Nat => t == 1) (fun _ : Nat => 0)
      (fun a b : Nat => a + b) 5 6 = none ∧
    bridge1 (fun t : Nat => t == 1) (fun _ : Nat => 0)
      (fun a : Nat => a + 1) 5 = none :=
  ⟨(C6_bridge_disabled_without_opt_in Nat Nat (fun t => t == 1)
      (fun _ => 0) 5 6 (by decide) (by decide)).1 Nat (fun a b => a + b),
   (C6_bridge_disabled_without_opt_in Nat Nat (fun t => t == 1)
      (fun _ => 0) 5 6 (by decide) (by decide)).2 Nat (fun a => a + 1)⟩

/-- C7: whenever the bridge guard holds, each bridged operator returns
exactly what the corresponding canonical named call returns: the binary
bridge yields `some (f x y)` for the canonical binary operation `f`
(covering and_, or_, less, less_equal, greater, greater_equal), and the
unary bridge yields `some (not_ x)`; there is no other behavioral
difference. -/
theorem C7_bridge_equals_canonical (τ α : Type) (optIn : τ → Bool)
    (tagOf : α → τ) (x y : α)
    (h : (optIn (tagOf x) || optIn (tagOf y)) = true) :
    (∀ (β : Type) (f : α → α → β), bridge2 optIn tagOf f x y = some (f x y)) ∧
    (optIn (tagOf x) = true →
      ∀ (β : Type) (g : α → β), bridge1 optIn tagOf g x = some (g x)) := by
  constructor
  · intro β f; simp [bridge2, h]
  · intro hx β g; simp [bridge1, hx]

/-- Witness for C7 with the left operand's tag opted in. -/
theorem C7_bridge_equals_canonical_witness :
    bridge2 (fun t : Nat => t == 1) (fun t : Nat => t)
      (fun a b : Nat => a + b) 1 0 = some 1 ∧
    bridge1 (fun t : Nat => t == 1) (fun t : Nat => t)
      (fun a : Nat => a * 2) 1 = some 2 :=
  ⟨(C7_bridge_equals_canonical Nat Nat (fun t => t == 1) (fun t => t) 1 0
      (by decide)).1 Nat (fun a b => a + b),
   (C7_bridge_equals_canonical Nat Nat (fun t => t == 1) (fun t => t) 1 0
      (by decide)).2 (by decide) Nat (fun a => a * 2)⟩

/-- C8: the two Comparable instances over the test Numeric wrapper are
interchangeable: the equal-MCD instance (primitive
`equal(x,y) = numeric(x.value == y.value)`, derived
`not_equal = not_(equal)`) and the not_equal-MCD instance (primitive
`not_equal(x,y) = numeric(x.value != y.value)`, derived
`equal = not_(not_equal)`) produce extensionally equal `equal` and
`not_equal` operations. -/
theorem C8_comparable_mcds_agree :
    ∀ x y : Numeric,
      equal_emcd x y = equal_nmcd x y ∧
      not_equal_emcd x y = not_equal_nmcd x y := by
  intro x y
  by_cases h : x.value = y.value <;>
    simp [equal_emcd, equal_nmcd, not_equal_emcd, not_equal_nmcd,
      Numeric.not_, numeric, h]

/-- C9: a bridged binary operator is enabled when at least one operand's
tag has opted in — with x opted in and y not, both operand orders still
dispatch to the canonical call — while the unary ! requires its single
operand's tag to have opted in: it dispatches on x and not on y. -/
theorem C9_bridge_one_sided_opt_in (τ α : Type) (optIn : τ → Bool)
    (tagOf : α → τ) (x y : α)
    (hx : optIn (tagOf x) = true) (hy : optIn (tagOf y) = false) :
    (∀ (β : Type) (f : α → α → β), bridge2 optIn tagOf f x y = some (f x y)) ∧
    (∀ (β : Type) (f : α → α → β), bridge2 optIn tagOf f y x = some (f y x)) ∧
    (∀ (β : Type) (g : α → β), bridge1 optIn tagOf g x = some (g x)) ∧
    (∀ (β : Type) (g : α → β), bridge1 optIn tagOf g y = none) := by
  refine ⟨fun β f => ?_, fun β f => ?_, fun β g => ?_, fun β g => ?_⟩
  · simp [bridge2, hx]
  · simp [bridge2, hx]
  · simp [bridge1, hx]
  · simp [bridge1, hy]

/-- Witness for C9 with tag 1 opted in, x of tag 1, y of tag 0. -/
theorem C9_bridge_one_sided_witness :
    bridge2 (fun t : Nat => t == 1) (fun t : Nat => t)
      (fun a b : Nat => a * 10 + b) 1 0 = some 10 ∧
    bridge2 (fun t : Nat => t == 1) (fun t : Nat => t)
      (fun a b : Nat => a * 10 + b) 0 1 = some 1 ∧
    bridge1 (fun t : Nat => t == 1) (fun t : Nat => t)
      (fun a : Nat => a + 3) 1 = some 4 ∧
    bridge1 (fun t : Nat => t == 1) (fun t : Nat => t)
      (fun a : Nat => a + 3) 0 = none :=
  ⟨(C9_bridge_one_sided_opt_in Nat Nat (fun t => t == 1) (fun t => t) 1 0
      (by decide) (by decide)).1 Nat (fun a b => a * 10 + b),
   (C9_bridge_one_sided_opt_in Nat Nat (fun t => t == 1) (fun t => t) 1 0
      (by decide) (by decide)).2.1 Nat (fun a b => a * 10 + b),
   (C9_bridge_one_sided_opt_in Nat Nat (fun t => t == 1) (fun t => t) 1 0
      (by decide) (by decide)).2.2.1 Nat (fun a => a + 3),
   (C9_bridge_one_sided_opt_in Nat Nat (fun t => t == 1) (fun t => t) 1 0
      (by decide) (by decide)).2.2.2 Nat (fun a => a + 3)⟩

/-- C10: under the less MCD with boolean conditions, min and max each
return one of the two arguments, selected oppositely by the same
condition: when less(x,y) holds, min is x and max is y; otherwise min is y
and max is x. -/
theorem C10_min_max_opposite_selection (α : Type) (lt : α → α → Bool)
    (x y : α) :
    ((boolLessMcd lt).min x y = x ∧ (boolLessMcd lt).max x y = y ∨
      (boolLessMcd lt).min x y = y ∧ (boolLessMcd lt).max x y = x) ∧
    (lt x y = true →
      (boolLessMcd lt).min x y = x ∧ (boolLessMcd lt).max x y = y) ∧
    (lt x y = false →
      (boolLessMcd lt).min x y = y ∧ (boolLessMcd lt).max x y = x) := by
  cases h : lt x y <;>
    simp [less_mcd.min, less_mcd.max, boolLessMcd, boolLogical, if_, h]

/-- Witness for C10 at lt = (a < b) on Nat, x = 1, y = 2. -/
theorem C10_min_max_witness :
    (boolLessMcd (fun a b : Nat => decide (a < b))).min 1 2 = 1 ∧
    (boolLessMcd (fun a b : Nat => decide (a < b))).max 1 2 = 2 :=
  (C10_min_max_opposite_selection Nat (fun a b => decide (a < b)) 1 2).2.1
    (by decide)
